import Mathlib

/-!
Verification of the clock-configuration subsystem and the cooperative
scheduler of the fdcanusb firmware composition root (src/fw/fdcanusb.cc).

The development shallowly embeds the relevant parts of the source:
* the clock-plan selector (the lambda inside `ClockManager::UpdateConfig`),
* the clock applier `SetupClock` with its four fallible HAL calls,
* the `ClockManager` registration with the persisted-configuration store,
* the boot sequence of `main`, and
* the two-cadence polling loop of `main`, as a small-step machine driven
  by a clock oracle supplying successive `timer.read_ms()` values.
-/

namespace Fdcanusb

/-- The clock-plan selector: the immediately-invoked lambda in
`ClockManager::UpdateConfig` (src/fw/fdcanusb.cc lines 98-103) that maps the
persisted `clock_.can_hz` value to a supported CAN bit-clock frequency:

    if (clock_.can_hz >= 85000000) { return 85000000; }
    if (clock_.can_hz >= 80000000) { return 80000000; }
    if (clock_.can_hz >= 60000000) { return 60000000; }
    return 85000000;

A total function on integers; the int32 domain of `can_hz` is a subset. -/
def Select (f : Int) : Int :=
  if f ≥ 85000000 then 85000000
  else if f ≥ 80000000 then 80000000
  else if f ≥ 60000000 then 60000000
  else 85000000

/-- The derived clock plan of the spec: selected CAN bit clock and the system
clock frequency passed to `SetupClock`. -/
structure ClockPlan where
  selected_can_hz : Int
  system_clock_hz : Int
deriving DecidableEq, Repr

/-- The plan computed by `ClockManager::UpdateConfig`
(src/fw/fdcanusb.cc lines 97-106): the selected frequency is
`Select can_hz` and the applied system clock is `can_clock_hz * 2`, the
argument of the `SetupClock(can_clock_hz * 2)` call. -/
def UpdateConfigPlan (can_hz : Int) : ClockPlan :=
  let can_clock_hz := Select can_hz
  { selected_can_hz := can_clock_hz, system_clock_hz := can_clock_hz * 2 }

/-- The persisted configuration record `ClockManager::Config`
(src/fw/fdcanusb.cc lines 109-116): a single `int32_t can_hz` field. -/
structure Config where
  can_hz : Int
deriving DecidableEq, Repr

/-- The in-class initializer `int32_t can_hz = 85000000;`. -/
def Config.default : Config := { can_hz := 85000000 }

/-- ClockManager::UpdateConfig as a state transformer on the manager's
only state, `clock_` : it reads `clock_.can_hz`, computes the plan, and
never writes `clock_`, so the state component is returned unchanged. -/
def UpdateConfigStep (s : Config) : ClockPlan × Config :=
  (UpdateConfigPlan s.can_hz, s)

/-- The four fallible HAL calls issued by `SetupClock`
(src/fw/fdcanusb.cc lines 36-86), in source order. -/
inductive HalCall
  /-- Call `HAL_RCC_ClockConfig` switching SYSCLK to the HSI fallback oscillator. -/
  | clockConfigHsi
  /-- Call `HAL_RCC_OscConfig` reconfiguring the PLL chain. -/
  | oscConfig
  /-- Call `HAL_RCC_ClockConfig` switching SYSCLK back to the PLL output. -/
  | clockConfigPll
  /-- Call `HAL_RCCEx_PeriphCLKConfig` selecting the FDCAN peripheral clock. -/
  | periphClkConfig
deriving DecidableEq, Repr

/-- The environment's verdict for each HAL call: `true` means `HAL_OK`. -/
structure HalOutcomes where
  clockConfigHsi : Bool
  oscConfig : Bool
  clockConfigPll : Bool
  periphClkConfig : Bool
deriving DecidableEq, Repr

/-- Outcome of the applier: `mbed_die()` halts the device; otherwise `SetupClock` returns. -/
inductive SetupOutcome
  | completed
  | halted
deriving DecidableEq, Repr

/-- The PLL multiplier computed by `SetupClock`:
`(clock_rate_hz / 1000000) * 24 / 48` with C integer division. -/
def pllN (clock_rate_hz : Int) : Int :=
  clock_rate_hz / 1000000 * 24 / 48

/-- SetupClock (src/fw/fdcanusb.cc lines 36-86): issues the four HAL calls
in order; each result `!= HAL_OK` triggers `mbed_die()` immediately, so no
later call is attempted. Returns the list of calls attempted and whether the
function completed or the device halted. The `clock_rate_hz` argument only
determines the PLL settings (`pllN`); the hardware verdicts are `h`. -/
def SetupClock (clock_rate_hz : Int) (h : HalOutcomes) :
    List HalCall × SetupOutcome :=
  if ¬ h.clockConfigHsi then ([.clockConfigHsi], .halted)
  else if ¬ h.oscConfig then ([.clockConfigHsi, .oscConfig], .halted)
  else if ¬ h.clockConfigPll then
    ([.clockConfigHsi, .oscConfig, .clockConfigPll], .halted)
  else if ¬ h.periphClkConfig then
    ([.clockConfigHsi, .oscConfig, .clockConfigPll, .periphClkConfig], .halted)
  else
    ([.clockConfigHsi, .oscConfig, .clockConfigPll, .periphClkConfig],
     .completed)

/-- A registration with the persisted-configuration store, as passed by the
`ClockManager` constructor to `persistent_config.Register` (src/fw/fdcanusb.cc
lines 90-95): a key, the registered record with its in-class default, and the
update callback. The callback reads the current record value (the store
writes through the registered `&clock_` pointer) and yields the plan that
`UpdateConfig` computes and applies. -/
structure Registration where
  key : String
  record : Config
  callback : Config → ClockPlan

/-- The registration performed by the `ClockManager` constructor:
key `"clock"`, record `clock_` with its default, and the callback
`[this]() { this->UpdateConfig(); }`. -/
def ClockManager.registration : Registration :=
  { key := "clock"
    record := Config.default
    callback := fun c => UpdateConfigPlan c.can_hz }

/-- The hardware application performed by `ClockManager::UpdateConfig`:
the `SetupClock(can_clock_hz * 2)` call, i.e. the applier invoked at the
plan's system clock frequency. -/
def UpdateConfigApply (c : Config) (h : HalOutcomes) :
    List HalCall × SetupOutcome :=
  SetupClock (UpdateConfigPlan c.can_hz).system_clock_hz h

/-- Modelled from the spec: the persisted-configuration store
(`mjlib::micro::PersistentConfig`, external to this repository) invokes a
registration's callback once at `Load()`, with the record holding the
persisted value. -/
def storeLoadTrigger (r : Registration) (persisted : Config) : ClockPlan :=
  r.callback persisted

/-- Modelled from the spec: the persisted-configuration store invokes the
same registered callback on any later external write to the record. -/
def storeWriteTrigger (r : Registration) (written : Config) : ClockPlan :=
  r.callback written

/-- The observable steps of `main`'s boot sequence
(src/fw/fdcanusb.cc lines 122-184), in source order. -/
inductive BootStep
  /-- The `SetupClock(170000000)` call at the top of `main` (line 123). -/
  | setupClockDefault (hz : Int)
  /-- Construct `DigitalOut power_led` (line 125). -/
  | constructPowerLed
  /-- Construct `fw::MillisecondTimer timer` (line 127). -/
  | constructTimer
  /-- Construct `micro::SizedPool<12288> pool` (line 129). -/
  | constructPool
  /-- Construct `fw::Stm32G4AsyncUsbCdc usb` (line 131). -/
  | constructUsb
  /-- Construct `fw::Stm32G4AsyncUart uart` (line 133). -/
  | constructUart
  /-- Construct `micro::AsyncExclusive write_stream` (line 147). -/
  | constructWriteStream
  /-- Construct `micro::CommandManager command_manager` (line 148). -/
  | constructCommandManager
  /-- Construct `micro::TelemetryManager telemetry_manager` (line 156). -/
  | constructTelemetryManager
  /-- Construct `fw::Stm32G4Flash flash_interface` (line 159). -/
  | constructFlashInterface
  /-- Construct `micro::PersistentConfig persistent_config` (line 160). -/
  | constructPersistentConfig
  /-- Construct `ClockManager clock` (line 163). -/
  | constructClockManager
  /-- Construct `fw::CanManager can_manager` (line 165). -/
  | constructCanManager
  /-- Construct `fw::FirmwareInfo firmware_info` (line 174). -/
  | constructFirmwareInfo
  /-- Construct `fw::GitInfo git_info` (line 176). -/
  | constructGitInfo
  /-- Call `telemetry_manager.Register("git", ...)` (line 177). -/
  | registerGitTelemetry
  /-- Call `persistent_config.Load()` (line 179). -/
  | loadPersistentConfig
  /-- Call `command_manager.AsyncStart()` (line 181). -/
  | startCommandManager
  /-- Call `can_manager.Start()` (line 182). -/
  | startCanManager
  /-- The `while (true)` scheduler loop is entered (line 184). -/
  | enterSchedulerLoop
deriving DecidableEq, Repr

/-- Whether a boot step constructs a peripheral or manager object. -/
def BootStep.isConstruction : BootStep → Bool
  | .constructPowerLed | .constructTimer | .constructPool | .constructUsb
  | .constructUart | .constructWriteStream | .constructCommandManager
  | .constructTelemetryManager | .constructFlashInterface
  | .constructPersistentConfig | .constructClockManager | .constructCanManager
  | .constructFirmwareInfo | .constructGitInfo => true
  | _ => false

/-- The boot sequence of `main`, transcribed statement by statement from
src/fw/fdcanusb.cc lines 122-184. -/
def bootSequence : List BootStep :=
  [ .setupClockDefault 170000000
  , .constructPowerLed
  , .constructTimer
  , .constructPool
  , .constructUsb
  , .constructUart
  , .constructWriteStream
  , .constructCommandManager
  , .constructTelemetryManager
  , .constructFlashInterface
  , .constructPersistentConfig
  , .constructClockManager
  , .constructCanManager
  , .constructFirmwareInfo
  , .constructGitInfo
  , .registerGitTelemetry
  , .loadPersistentConfig
  , .startCommandManager
  , .startCanManager
  , .enterSchedulerLoop ]

/-- Unsigned 32-bit subtraction `now - start` as C computes it on `uint32_t`
operands already reduced below 2^32: the difference modulo 2^32. This is the
`now - start` expression of the scheduler (src/fw/fdcanusb.cc line 188). -/
def elapsed_ms (now start : Nat) : Nat :=
  (now + 4294967296 - start) % 4294967296

/-- The observable calls the scheduler loop makes on the pollables. -/
inductive Event
  /-- Call `uart.Poll()` (line 190). -/
  | pollUart
  /-- Call `can_manager.Poll()` (line 191). -/
  | pollCan
  /-- Call `usb.Poll()` (line 192). -/
  | pollUsb
  /-- Call `can_manager.Poll10Ms()` (line 195). -/
  | poll10msCan
  /-- Call `usb.Poll10Ms()` (line 196). -/
  | poll10msUsb
deriving DecidableEq, Repr

/-- Program locations of the scheduler loop (src/fw/fdcanusb.cc
lines 184-197), one per statement the loop executes. -/
inductive PC
  /-- About to execute `const uint32_t start = timer.read_ms();` (line 185). -/
  | startCycle
  /-- About to read `now` and test `if (now - start > 10) break;`
  (lines 187-188). -/
  | checkTime
  /-- About to call `uart.Poll()` (line 190). -/
  | pollUart
  /-- About to call `can_manager.Poll()` (line 191). -/
  | pollCan
  /-- About to call `usb.Poll()` (line 192). -/
  | pollUsb
  /-- About to call `can_manager.Poll10Ms()` (line 195). -/
  | poll10msCan
  /-- About to call `usb.Poll10Ms()` (line 196). -/
  | poll10msUsb
deriving DecidableEq, Repr

/-- Scheduler machine state: the program location, the number of
`timer.read_ms()` reads performed so far, the `start` value of the current
outer cycle, and the trace of pollable calls (most recent first). -/
structure SchedState where
  pc : PC
  readIdx : Nat
  cycleStart : Nat
  trace : List Event
deriving DecidableEq, Repr

/-- One statement of the scheduler loop. The clock oracle `clock` supplies
the value of the `i`-th `timer.read_ms()` read; reads are reduced modulo
2^32 since `read_ms` returns `uint32_t`. -/
def step (clock : Nat → Nat) (s : SchedState) : SchedState :=
  match s.pc with
  | .startCycle =>
      { s with pc := .checkTime
               readIdx := s.readIdx + 1
               cycleStart := clock s.readIdx % 4294967296 }
  | .checkTime =>
      let now := clock s.readIdx % 4294967296
      if elapsed_ms now s.cycleStart > 10 then
        { s with pc := .poll10msCan, readIdx := s.readIdx + 1 }
      else
        { s with pc := .pollUart, readIdx := s.readIdx + 1 }
  | .pollUart =>
      { s with pc := .pollCan, trace := Event.pollUart :: s.trace }
  | .pollCan =>
      { s with pc := .pollUsb, trace := Event.pollCan :: s.trace }
  | .pollUsb =>
      { s with pc := .checkTime, trace := Event.pollUsb :: s.trace }
  | .poll10msCan =>
      { s with pc := .poll10msUsb, trace := Event.poll10msCan :: s.trace }
  | .poll10msUsb =>
      { s with pc := .startCycle, trace := Event.poll10msUsb :: s.trace }

/-- The state on entry to the scheduler loop. -/
def initState : SchedState :=
  { pc := .startCycle, readIdx := 0, cycleStart := 0, trace := [] }

/-- The scheduler after `n` statements, driven by the clock oracle. -/
def run (clock : Nat → Nat) : Nat → SchedState
  | 0 => initState
  | n + 1 => step clock (run clock n)

end Fdcanusb

namespace Fdcanusb

/-- C1: For every integer input `f` (in particular every int32), the
clock-plan selector returns a value in {60000000, 80000000, 85000000},
with `Select 84999999 = 80000000`, `Select 85000000 = 85000000` and
`Select 59999999 = 85000000` (fallback); `Select` is a total Lean function,
so it is pure with no error path. -/
theorem C1_select_tiers :
    (∀ f : Int,
      Select f = 60000000 ∨ Select f = 80000000 ∨ Select f = 85000000) ∧
    Select 84999999 = 80000000 ∧
    Select 85000000 = 85000000 ∧
    Select 59999999 = 85000000 := by
  refine ⟨fun f => ?_, by decide, by decide, by decide⟩
  unfold Select
  split_ifs <;> simp

/-- C2: Every plan produced by the update path has
`system_clock_hz = 2 * selected_can_hz`, and the end-to-end examples hold:
`can_hz = 85000000` gives {85000000, 170000000}, `can_hz = 61000000` gives
{60000000, 120000000}, and `can_hz = 0` gives the fallback
{85000000, 170000000}. -/
theorem C2_plan_ratio :
    (∀ v : Int,
      (UpdateConfigPlan v).system_clock_hz =
        2 * (UpdateConfigPlan v).selected_can_hz) ∧
    UpdateConfigPlan 85000000 =
      { selected_can_hz := 85000000, system_clock_hz := 170000000 } ∧
    UpdateConfigPlan 61000000 =
      { selected_can_hz := 60000000, system_clock_hz := 120000000 } ∧
    UpdateConfigPlan 0 =
      { selected_can_hz := 85000000, system_clock_hz := 170000000 } := by
  refine ⟨fun v => ?_, by decide, by decide, by decide⟩
  simp [UpdateConfigPlan, Int.mul_comm]

/-- C7: Invoking the update path twice in succession with an unchanged
persisted value produces the same plan both times, and the state (the
persisted record) is not mutated by the update: no hidden state drift. -/
theorem C7_update_idempotent :
    ∀ s : Config,
      (UpdateConfigStep (UpdateConfigStep s).2).1 = (UpdateConfigStep s).1 ∧
      (UpdateConfigStep s).2 = s := by
  intro s
  exact ⟨rfl, rfl⟩

/-- C5: The applier either completes with all four hardware calls
succeeding, or the device halts: completion is equivalent to every HAL call
returning `HAL_OK`, the outcome is always one of the two, and no call is
ever retried (the attempted-call list has no duplicates) nor is any call
attempted after a failure (the list is a prefix of the source order that
ends at the first failing call). -/
theorem C5_setupclock_fail_fast :
    ∀ (hz : Int) (h : HalOutcomes),
      ((SetupClock hz h).2 = .completed ↔
        h.clockConfigHsi = true ∧ h.oscConfig = true ∧
        h.clockConfigPll = true ∧ h.periphClkConfig = true) ∧
      ((SetupClock hz h).2 = .completed ∨ (SetupClock hz h).2 = .halted) ∧
      (SetupClock hz h).1.Nodup ∧
      (SetupClock hz h).1 <+:
        [HalCall.clockConfigHsi, HalCall.oscConfig,
         HalCall.clockConfigPll, HalCall.periphClkConfig] := by
  intro hz h
  obtain ⟨a, b, c, d⟩ := h
  cases a <;> cases b <;> cases c <;> cases d <;>
    simp [SetupClock, List.Nodup, List.IsPrefix]

/-- C6: the Clock Manager's construction-time registration uses the fixed
key `"clock"` and the `ClockConfig` record whose single `can_hz` field
defaults to 85000000 (a value inside the int32 range); the store's `Load()`
trigger and the external-write trigger invoke the same registered callback;
that callback recomputes the plan via the selector; and the hardware
application is the applier invoked at twice the selected frequency. -/
theorem C6_registration_contract :
    ClockManager.registration.key = "clock" ∧
    ClockManager.registration.record = Config.default ∧
    Config.default.can_hz = 85000000 ∧
    -(2 ^ 31) ≤ Config.default.can_hz ∧ Config.default.can_hz < 2 ^ 31 ∧
    (∀ c : Config,
      storeLoadTrigger ClockManager.registration c =
        storeWriteTrigger ClockManager.registration c) ∧
    (∀ c : Config,
      ClockManager.registration.callback c = UpdateConfigPlan c.can_hz) ∧
    (∀ (c : Config) (h : HalOutcomes),
      UpdateConfigApply c h = SetupClock (Select c.can_hz * 2) h) := by
  refine ⟨rfl, rfl, rfl, by decide, by decide,
          fun c => rfl, fun c => rfl, fun c h => rfl⟩

/-- C9: in the boot sequence of `main`, the very first step is
`SetupClock(170000000)`; it occurs strictly before `persistent_config.Load()`;
`Load()` does occur; and no peripheral or manager object is constructed at or
after the `Load()` step, i.e. all constructions precede the load. -/
theorem C9_boot_order :
    bootSequence.head? = some (BootStep.setupClockDefault 170000000) ∧
    bootSequence.indexOf (BootStep.setupClockDefault 170000000) <
      bootSequence.indexOf BootStep.loadPersistentConfig ∧
    BootStep.loadPersistentConfig ∈ bootSequence ∧
    (bootSequence.drop
        (bootSequence.indexOf BootStep.loadPersistentConfig)).all
      (fun s => ! s.isConstruction) = true := by
  refine ⟨rfl, by decide, by decide, by decide⟩

/-- C8: the scheduler's elapsed-time computation is wraparound-correct.
If the true monotonic time advanced from `S` to `N` with `N - S < 2^32`,
then the unsigned 32-bit difference of the truncated counter readings equals
the true elapsed time, so the 10 ms comparison is unaffected by counter
overflow. -/
theorem C8_elapsed_wraparound :
    ∀ S N : Nat, S ≤ N → N - S < 4294967296 →
      elapsed_ms (N % 4294967296) (S % 4294967296) = N - S ∧
      (elapsed_ms (N % 4294967296) (S % 4294967296) > 10 ↔ N - S > 10) := by
  intro S N hSN hlt
  have h : elapsed_ms (N % 4294967296) (S % 4294967296) = N - S := by
    simp only [elapsed_ms]
    omega
  exact ⟨h, by rw [h]⟩

/-- Witness for C8 at a reading pair that crosses the 2^32 wraparound:
true times 4294967291 and 4294967303 (12 ms apart). -/
theorem C8_elapsed_wraparound_witness :
    (4294967291 : Nat) ≤ 4294967303 ∧
    (4294967303 - 4294967291 : Nat) < 4294967296 ∧
    elapsed_ms (4294967303 % 4294967296) (4294967291 % 4294967296) = 12 := by
  refine ⟨by norm_num, by norm_num, ?_⟩
  have h := (C8_elapsed_wraparound 4294967291 4294967303
    (by norm_num) (by norm_num)).1
  rw [h]

/-- Executing the statement at `startCycle` reads the timer into `start`
and moves to the threshold check. -/
lemma step_at_startCycle (clock : Nat → Nat) (s : SchedState)
    (h : s.pc = PC.startCycle) :
    step clock s =
      { s with pc := PC.checkTime, readIdx := s.readIdx + 1,
               cycleStart := clock s.readIdx % 4294967296 } := by
  obtain ⟨pc, i, st, tr⟩ := s
  have h9 : pc = PC.startCycle := h
  subst h9
  rfl

/-- Executing the check when the elapsed time has not exceeded 10 ms starts
an inner pass at `uart.Poll()`. -/
lemma step_at_checkTime_go (clock : Nat → Nat) (s : SchedState)
    (h : s.pc = PC.checkTime)
    (hle : elapsed_ms (clock s.readIdx % 4294967296) s.cycleStart ≤ 10) :
    step clock s = { s with pc := PC.pollUart, readIdx := s.readIdx + 1 } := by
  obtain ⟨pc, i, st, tr⟩ := s
  have h9 : pc = PC.checkTime := h
  subst h9
  have hle9 : elapsed_ms (clock i % 4294967296) st ≤ 10 := hle
  simp only [step]
  rw [if_neg (by omega)]

/-- Executing the check when the elapsed time strictly exceeds 10 ms breaks
out of the inner loop to `can_manager.Poll10Ms()`. -/
lemma step_at_checkTime_fire (clock : Nat → Nat) (s : SchedState)
    (h : s.pc = PC.checkTime)
    (hgt : elapsed_ms (clock s.readIdx % 4294967296) s.cycleStart > 10) :
    step clock s =
      { s with pc := PC.poll10msCan, readIdx := s.readIdx + 1 } := by
  obtain ⟨pc, i, st, tr⟩ := s
  have h9 : pc = PC.checkTime := h
  subst h9
  have hgt9 : elapsed_ms (clock i % 4294967296) st > 10 := hgt
  simp only [step]
  rw [if_pos hgt9]

/-- Executing `uart.Poll()` records the call and moves to
`can_manager.Poll()`. -/
lemma step_at_pollUart (clock : Nat → Nat) (s : SchedState)
    (h : s.pc = PC.pollUart) :
    step clock s =
      { s with pc := PC.pollCan, trace := Event.pollUart :: s.trace } := by
  obtain ⟨pc, i, st, tr⟩ := s
  have h9 : pc = PC.pollUart := h
  subst h9
  rfl

/-- Executing `can_manager.Poll()` records the call and moves to
`usb.Poll()`. -/
lemma step_at_pollCan (clock : Nat → Nat) (s : SchedState)
    (h : s.pc = PC.pollCan) :
    step clock s =
      { s with pc := PC.pollUsb, trace := Event.pollCan :: s.trace } := by
  obtain ⟨pc, i, st, tr⟩ := s
  have h9 : pc = PC.pollCan := h
  subst h9
  rfl

/-- Executing `usb.Poll()` records the call and returns to the threshold
check. -/
lemma step_at_pollUsb (clock : Nat → Nat) (s : SchedState)
    (h : s.pc = PC.pollUsb) :
    step clock s =
      { s with pc := PC.checkTime, trace := Event.pollUsb :: s.trace } := by
  obtain ⟨pc, i, st, tr⟩ := s
  have h9 : pc = PC.pollUsb := h
  subst h9
  rfl

/-- Executing `can_manager.Poll10Ms()` records the call and moves to
`usb.Poll10Ms()`. -/
lemma step_at_poll10msCan (clock : Nat → Nat) (s : SchedState)
    (h : s.pc = PC.poll10msCan) :
    step clock s =
      { s with pc := PC.poll10msUsb,
               trace := Event.poll10msCan :: s.trace } := by
  obtain ⟨pc, i, st, tr⟩ := s
  have h9 : pc = PC.poll10msCan := h
  subst h9
  rfl

/-- Executing `usb.Poll10Ms()` records the call and starts a fresh outer
cycle. -/
lemma step_at_poll10msUsb (clock : Nat → Nat) (s : SchedState)
    (h : s.pc = PC.poll10msUsb) :
    step clock s =
      { s with pc := PC.startCycle,
               trace := Event.poll10msUsb :: s.trace } := by
  obtain ⟨pc, i, st, tr⟩ := s
  have h9 : pc = PC.poll10msUsb := h
  subst h9
  rfl

/-- C3: whenever the threshold check does not break out (elapsed ≤ 10 ms), a
full inner pass follows: after four statements the machine is back at the
check and the trace has grown by exactly `uart.Poll()`, `can_manager.Poll()`,
`usb.Poll()` in that order (the trace lists the most recent call first).
This holds at every check of every pass of every outer cycle, so each
pollable is polled at least once per pass, always in the same fixed order. -/
theorem C3_pass_order :
    ∀ (clock : Nat → Nat) (n : Nat),
      (run clock n).pc = PC.checkTime →
      elapsed_ms (clock (run clock n).readIdx % 4294967296)
        (run clock n).cycleStart ≤ 10 →
      (run clock (n + 4)).pc = PC.checkTime ∧
      (run clock (n + 4)).trace =
        Event.pollUsb :: Event.pollCan :: Event.pollUart ::
          (run clock n).trace := by
  intro clock n hpc hle
  have e1 := step_at_checkTime_go clock (run clock n) hpc hle
  constructor
  · show (step clock (step clock (step clock
      (step clock (run clock n))))).pc = PC.checkTime
    rw [e1]
    rfl
  · show (step clock (step clock (step clock
      (step clock (run clock n))))).trace = _
    rw [e1]
    rfl

/-- Witness for C3 with a stalled clock: from the check at step 1, the pass
completes by step 5 with the three polls in order. -/
theorem C3_pass_order_witness :
    (run (fun _ => 0) 5).pc = PC.checkTime ∧
    (run (fun _ => 0) 5).trace =
      [Event.pollUsb, Event.pollCan, Event.pollUart] := by
  have h := C3_pass_order (fun _ => 0) 1 (by decide) (by decide)
  exact ⟨h.1, h.2⟩

/-- Stalled-clock invariant: if every timer read returns 0, the cycle start
is always 0 and the machine never leaves the inner loop (its location is
never a `Poll10Ms` call). -/
lemma run_zero_clock (n : Nat) :
    (run (fun _ => 0) n).cycleStart = 0 ∧
    ((run (fun _ => 0) n).pc = PC.startCycle ∨
     (run (fun _ => 0) n).pc = PC.checkTime ∨
     (run (fun _ => 0) n).pc = PC.pollUart ∨
     (run (fun _ => 0) n).pc = PC.pollCan ∨
     (run (fun _ => 0) n).pc = PC.pollUsb) := by
  induction n with
  | zero => exact ⟨rfl, Or.inl rfl⟩
  | succ n ih =>
    obtain ⟨hcs, hpc⟩ := ih
    rcases hpc with h | h | h | h | h
    · have e := step_at_startCycle (fun _ => 0) (run (fun _ => 0) n) h
      constructor
      · show (step (fun _ => 0) (run (fun _ => 0) n)).cycleStart = 0
        rw [e]
        simp
      · right; left
        show (step (fun _ => 0) (run (fun _ => 0) n)).pc = PC.checkTime
        rw [e]
    · have hle : elapsed_ms (0 % 4294967296)
          (run (fun _ => 0) n).cycleStart ≤ 10 := by
        rw [hcs]
        norm_num [elapsed_ms]
      have e := step_at_checkTime_go (fun _ => 0) (run (fun _ => 0) n) h hle
      constructor
      · show (step (fun _ => 0) (run (fun _ => 0) n)).cycleStart = 0
        rw [e]
        exact hcs
      · right; right; left
        show (step (fun _ => 0) (run (fun _ => 0) n)).pc = PC.pollUart
        rw [e]
    · have e := step_at_pollUart (fun _ => 0) (run (fun _ => 0) n) h
      constructor
      · show (step (fun _ => 0) (run (fun _ => 0) n)).cycleStart = 0
        rw [e]
        exact hcs
      · right; right; right; left
        show (step (fun _ => 0) (run (fun _ => 0) n)).pc = PC.pollCan
        rw [e]
    · have e := step_at_pollCan (fun _ => 0) (run (fun _ => 0) n) h
      constructor
      · show (step (fun _ => 0) (run (fun _ => 0) n)).cycleStart = 0
        rw [e]
        exact hcs
      · right; right; right; right
        show (step (fun _ => 0) (run (fun _ => 0) n)).pc = PC.pollUsb
        rw [e]
    · have e := step_at_pollUsb (fun _ => 0) (run (fun _ => 0) n) h
      constructor
      · show (step (fun _ => 0) (run (fun _ => 0) n)).cycleStart = 0
        rw [e]
        exact hcs
      · right; left
        show (step (fun _ => 0) (run (fun _ => 0) n)).pc = PC.checkTime
        rw [e]

/-- C4: the maintenance calls fire only when the unsigned elapsed time since
the current cycle start strictly exceeds 10 ms — reaching
`can_manager.Poll10Ms()` is possible only from a check whose elapsed value
was > 10. Once fired, `usb.Poll10Ms()` follows and then immediately a fresh
cycle start, so the pair runs exactly once per outer cycle, strictly before
the next inner pass. There is no upper bound on the delay: with a stalled
clock the machine stays in the inner loop forever and `Poll10Ms` is never
reached. -/
theorem C4_poll10ms_threshold :
    (∀ (clock : Nat → Nat) (n : Nat),
      (run clock (n + 1)).pc = PC.poll10msCan →
      (run clock n).pc = PC.checkTime ∧
      elapsed_ms (clock (run clock n).readIdx % 4294967296)
        (run clock n).cycleStart > 10) ∧
    (∀ (clock : Nat → Nat) (n : Nat),
      (run clock n).pc = PC.poll10msCan →
      (run clock (n + 1)).pc = PC.poll10msUsb ∧
      (run clock (n + 2)).pc = PC.startCycle) ∧
    (∀ n : Nat,
      (run (fun _ => 0) n).pc = PC.startCycle ∨
      (run (fun _ => 0) n).pc = PC.checkTime ∨
      (run (fun _ => 0) n).pc = PC.pollUart ∨
      (run (fun _ => 0) n).pc = PC.pollCan ∨
      (run (fun _ => 0) n).pc = PC.pollUsb) := by
  refine ⟨?_, ?_, fun n => (run_zero_clock n).2⟩
  · intro clock n h
    have hstep : (step clock (run clock n)).pc = PC.poll10msCan := h
    cases hpc : (run clock n).pc with
    | startCycle =>
        rw [step_at_startCycle clock (run clock n) hpc] at hstep
        simp at hstep
    | checkTime =>
        by_cases hc : elapsed_ms (clock (run clock n).readIdx % 4294967296)
            (run clock n).cycleStart > 10
        · exact ⟨rfl, hc⟩

        · rw [step_at_checkTime_go clock (run clock n) hpc (by omega)] at hstep
          simp at hstep
    | pollUart =>
        rw [step_at_pollUart clock (run clock n) hpc] at hstep
        simp at hstep
    | pollCan =>
        rw [step_at_pollCan clock (run clock n) hpc] at hstep
        simp at hstep
    | pollUsb =>
        rw [step_at_pollUsb clock (run clock n) hpc] at hstep
        simp at hstep
    | poll10msCan =>
        rw [step_at_poll10msCan clock (run clock n) hpc] at hstep
        simp at hstep
    | poll10msUsb =>
        rw [step_at_poll10msUsb clock (run clock n) hpc] at hstep
        simp at hstep
  · intro clock n h
    have e1 := step_at_poll10msCan clock (run clock n) h
    constructor
    · show (step clock (run clock n)).pc = PC.poll10msUsb
      rw [e1]
    · show (step clock (step clock (run clock n))).pc = PC.startCycle
      rw [e1]
      rfl

/-- Witness for C4 with a clock that jumps by 100 ms: the firing check at
step 1 has elapsed > 10, and the two maintenance calls are followed at once
by a fresh cycle start. -/
theorem C4_poll10ms_threshold_witness :
    ((run (fun i => if i = 0 then 0 else 100) 1).pc = PC.checkTime ∧
      elapsed_ms ((fun i : Nat => if i = 0 then 0 else 100)
          (run (fun i => if i = 0 then 0 else 100) 1).readIdx % 4294967296)
        (run (fun i => if i = 0 then 0 else 100) 1).cycleStart > 10) ∧
    (run (fun i => if i = 0 then 0 else 100) 3).pc = PC.poll10msUsb ∧
    (run (fun i => if i = 0 then 0 else 100) 4).pc = PC.startCycle := by
  refine ⟨C4_poll10ms_threshold.1 (fun i => if i = 0 then 0 else 100) 1
      (by decide), ?_, ?_⟩
  · exact (C4_poll10ms_threshold.2.1 (fun i => if i = 0 then 0 else 100) 2
      (by decide)).1
  · exact (C4_poll10ms_threshold.2.1 (fun i => if i = 0 then 0 else 100) 2
      (by decide)).2

/-- C10: the threshold check happens only at pass boundaries. Once a pass
has begun (the machine is at `uart.Poll()`), the next three statements are
exactly the three polls; the machine reaches the next check only after all
three, no timer read happens inside the pass (the read count is unchanged),
and no `Poll10Ms` call is interleaved (the trace grows by exactly the three
poll events). -/
theorem C10_pass_atomic :
    ∀ (clock : Nat → Nat) (n : Nat),
      (run clock n).pc = PC.pollUart →
      (run clock (n + 1)).pc = PC.pollCan ∧
      (run clock (n + 2)).pc = PC.pollUsb ∧
      (run clock (n + 3)).pc = PC.checkTime ∧
      (run clock (n + 3)).trace =
        Event.pollUsb :: Event.pollCan :: Event.pollUart ::
          (run clock n).trace ∧
      (run clock (n + 3)).readIdx = (run clock n).readIdx := by
  intro clock n h
  have e1 := step_at_pollUart clock (run clock n) h
  refine ⟨?_, ?_, ?_, ?_, ?_⟩
  · show (step clock (run clock n)).pc = PC.pollCan
    rw [e1]
  · show (step clock (step clock (run clock n))).pc = PC.pollUsb
    rw [e1]
    rfl
  · show (step clock (step clock (step clock (run clock n)))).pc =
      PC.checkTime
    rw [e1]
    rfl
  · show (step clock (step clock (step clock (run clock n)))).trace = _
    rw [e1]
    rfl
  · show (step clock (step clock (step clock (run clock n)))).readIdx = _
    rw [e1]
    rfl

/-- Witness for C10 with a stalled clock: the pass that begins at step 2
completes through step 5 with exactly the three polls and no timer read. -/
theorem C10_pass_atomic_witness :
    (run (fun _ => 0) 3).pc = PC.pollCan ∧
    (run (fun _ => 0) 4).pc = PC.pollUsb ∧
    (run (fun _ => 0) 5).pc = PC.checkTime ∧
    (run (fun _ => 0) 5).trace =
      [Event.pollUsb, Event.pollCan, Event.pollUart] ∧
    (run (fun _ => 0) 5).readIdx = (run (fun _ => 0) 2).readIdx := by
  have h := C10_pass_atomic (fun _ => 0) 2 (by decide)
  exact ⟨h.1, h.2.1, h.2.2.1, h.2.2.2.1, h.2.2.2.2⟩

end Fdcanusb
